import Mathlib

/-!
# Verification of the quant-telegram throttling/batching engine

Shallow embedding of `src/quant_telegram/core/throttle.py`
(`MessageThrottle`, `ThrottleState`) and of the dispatch pattern in
`src/quant_telegram/core/bot.py`.

Modelling conventions:
* `time.time()` is modelled by an explicit `now : Int` argument passed to each
  operation; `throttle_seconds` is an `Int` (the Python parameter is an int,
  and negative values must be representable).
* The `asyncio` lock makes each of `should_send_immediately`, the body of
  `queue_message`, the post-sleep body of `_batch_sender`, and `cleanup` a
  single critical section; each is therefore one atomic step of the model.
* An `asyncio.Task` is modelled by an entry in a global task list; the id of a
  task is its index.  A task created by `queue_message` starts `running`;
  running the `_batch_sender` body marks it `finished`; `cleanup` marks a
  running task `cancelled` (a cancelled sleeper never runs its body).
  `Task.done()` is true for `finished` and `cancelled` tasks.
* The Python dict `self._states` is modelled as `String → Option ThrottleState`.
* `send_callback` invocations are returned as the list of strings delivered
  during the step, in call order (the registry never inspects send results).
-/

inductive TaskStatus where
  | running
  | finished
  | cancelled
deriving DecidableEq

structure FlushTask where
  key : String
  status : TaskStatus
deriving DecidableEq

/-- Python `asyncio.Task.done()`: true once the task finished or was cancelled. -/
def FlushTask.isDone (t : FlushTask) : Bool :=
  t.status ≠ TaskStatus.running

/-- Python `ThrottleState` from throttle.py: `last_sent: float = 0.0`,
`pending_messages: list = []`, `task: Optional[asyncio.Task] = None`. -/
structure ThrottleState where
  last_sent : Int := 0
  pending_messages : List String := []
  task : Option Nat := none
deriving DecidableEq

/-- The `MessageThrottle` registry: the `_states` dict plus the pool of all
tasks ever created (indices are task ids). -/
structure MessageThrottle where
  states : String → Option ThrottleState
  tasks : List FlushTask

/-- A freshly constructed `MessageThrottle()`: empty dict, no tasks. -/
def emptyThrottle : MessageThrottle :=
  { states := fun _ => none, tasks := [] }

/-- Python `f"{message_type}:{key}"`. -/
def throttleKey (message_type key : String) : String :=
  message_type ++ ":" ++ key

/-- Store a value into the `_states` dict. -/
def setState (f : String → Option ThrottleState) (k : String) (s : ThrottleState) :
    String → Option ThrottleState :=
  fun k' => if k' = k then some s else f k'

/-- Python `MessageThrottle.should_send_immediately`.  Returns the boolean decision
and the registry after the call. -/
def should_send_immediately (r : MessageThrottle) (now : Int)
    (message_type : String) (throttle_seconds : Int) (key : String) :
    Bool × MessageThrottle :=
  if throttle_seconds = 0 then
    (true, r)
  else
    let tk := throttleKey message_type key
    match r.states tk with
    | none =>
      (true, { r with states := setState r.states tk ⟨now, [], none⟩ })
    | some state =>
      if now - state.last_sent ≥ throttle_seconds then
        (true, { r with states := setState r.states tk { state with last_sent := now } })
      else
        (false, r)

/-- Condition `state.task is None or state.task.done()`: the condition under which
`queue_message` starts a fresh batch task. -/
def taskAbsentOrDone (r : MessageThrottle) (o : Option Nat) : Bool :=
  match o with
  | none => true
  | some tid =>
    match r.tasks[tid]? with
    | some t => t.isDone
    | none => true

/-- Python `MessageThrottle.queue_message`.  Returns the registry after the call and
the messages delivered immediately (nonempty only on the emergency path).
The Python code first inserts a default `ThrottleState()` when the key is
absent, then mutates it in place; the net effect — store the (looked-up or
default) state with the message appended, and a fresh task when none is
running — is written directly. -/
def queue_message (r : MessageThrottle) (message_type : String)
    (throttle_seconds : Int) (message : String) (key : String) :
    MessageThrottle × List String :=
  if throttle_seconds = 0 then
    (r, [message])
  else
    let tk := throttleKey message_type key
    let s0 := (r.states tk).getD {}
    let s1 := { s0 with pending_messages := s0.pending_messages ++ [message] }
    if taskAbsentOrDone r s1.task then
      ({ r with
          states := setState r.states tk { s1 with task := some r.tasks.length },
          tasks := r.tasks ++ [⟨tk, TaskStatus.running⟩] }, [])
    else
      ({ r with states := setState r.states tk s1 }, [])

/-- Python `"\n---\n".join(messages)`. -/
def sepJoin : List String → String
  | [] => ""
  | [m] => m
  | m :: ms => m ++ "\n---\n" ++ sepJoin ms

/-- Python `f"ğŸ“Š <b>Batched Updates ({len(messages)})</b>\n\n{batched_message}"`
(the four odd characters are exactly the ones in the source file). -/
def batchedText (msgs : List String) : String :=
  "ğŸ“Š <b>Batched Updates (" ++ toString msgs.length ++ ")</b>\n\n"
    ++ sepJoin msgs

/-- The messages delivered by one flush of a pending batch:
one call with the single message, or one combined call. -/
def flushOutput : List String → List String
  | [] => []
  | [m] => [m]
  | m :: ms => [batchedText (m :: ms)]

/-- The body of `MessageThrottle._batch_sender` after the sleep: snapshot and
clear `pending_messages`, set `last_sent`, then deliver.  Returns the registry
after the step and the delivered messages. -/
def batch_sender (r : MessageThrottle) (now : Int) (throttle_key : String) :
    MessageThrottle × List String :=
  match r.states throttle_key with
  | none => (r, [])
  | some state =>
    match state.pending_messages with
    | [] => (r, [])
    | m :: ms =>
      ({ r with
          states := setState r.states throttle_key
            { state with pending_messages := [], last_sent := now } },
       flushOutput (m :: ms))

/-- A scheduled task fires: only a still-running task executes its
`_batch_sender` body (a cancelled sleeper never does), and the task is done
afterwards. -/
def fireTask (r : MessageThrottle) (now : Int) (tid : Nat) :
    MessageThrottle × List String :=
  match r.tasks[tid]? with
  | none => (r, [])
  | some t =>
    if t.status = TaskStatus.running then
      let res := batch_sender r now t.key
      ({ res.1 with tasks := res.1.tasks.set tid { t with status := TaskStatus.finished } },
       res.2)
    else
      (r, [])

/-- Python `MessageThrottle.cleanup`: cancel every not-yet-done task and clear the
state dict. -/
def cleanup (r : MessageThrottle) : MessageThrottle :=
  { states := fun _ => none,
    tasks := r.tasks.map fun t =>
      if t.status = TaskStatus.running then { t with status := TaskStatus.cancelled } else t }

/-- One observable interaction with the registry. -/
inductive Event where
  | decideEv (now : Int) (message_type : String) (throttle_seconds : Int) (key : String)
  | enqueueEv (message_type : String) (throttle_seconds : Int) (message : String) (key : String)
  | fireEv (now : Int) (tid : Nat)
  | cleanupEv

/-- The registry after one event (delivered messages discarded). -/
def step (r : MessageThrottle) : Event → MessageThrottle
  | .decideEv now mt ts k => (should_send_immediately r now mt ts k).2
  | .enqueueEv mt ts m k => (queue_message r mt ts m k).1
  | .fireEv now tid => (fireTask r now tid).1
  | .cleanupEv => cleanup r

/-- The registry reached from a fresh `MessageThrottle()` by a sequence of
events. -/
def run (evs : List Event) : MessageThrottle :=
  evs.foldl step emptyThrottle

/-- Pending batch of a key (empty when the key has no state). -/
def pendingOf (r : MessageThrottle) (k : String) : List String :=
  ((r.states k).getD {}).pending_messages

/-- Field `last_sent` of a key (0 when the key has no state). -/
def lastSentOf (r : MessageThrottle) (k : String) : Int :=
  ((r.states k).getD {}).last_sent

/-- Enqueue a list of messages in order, collecting immediate deliveries. -/
def enqueueAll (r : MessageThrottle) (mt : String) (ts : Int) (k : String) :
    List String → MessageThrottle × List String
  | [] => (r, [])
  | m :: ms =>
    let p := queue_message r mt ts m k
    let q := enqueueAll p.1 mt ts k ms
    (q.1, p.2 ++ q.2)

/-- The dispatch pattern of `TelegramBot.price_alert` / `position_update` /
`system_alert` (bot.py): ask `should_send_immediately`; on true, send directly
and return the send capability's boolean result; on false, queue and return
`True`.  The formatted message is an opaque string (formatting is a peripheral
capability per the spec), and `sendResult` is the boolean the send capability
would report.  Returns (method result, registry after, messages delivered now). -/
def notifyDispatch (r : MessageThrottle) (now : Int) (category : String)
    (interval : Int) (subkey message : String) (sendResult : Bool) :
    Bool × MessageThrottle × List String :=
  let d := should_send_immediately r now category interval subkey
  if d.1 then
    (sendResult, d.2, [message])
  else
    let q := queue_message d.2 category interval message subkey
    (true, q.1, q.2)

/-- Python `TelegramBot.price_alert`: category "price_alert", subkey = symbol. -/
def price_alert (r : MessageThrottle) (now : Int) (interval : Int)
    (symbol message : String) (sendResult : Bool) : Bool × MessageThrottle × List String :=
  notifyDispatch r now "price_alert" interval symbol message sendResult

/-- Python `TelegramBot.position_update`: category "position_update", subkey = exchange. -/
def position_update (r : MessageThrottle) (now : Int) (interval : Int)
    (exchange message : String) (sendResult : Bool) : Bool × MessageThrottle × List String :=
  notifyDispatch r now "position_update" interval exchange message sendResult

/-- Python `TelegramBot.system_alert`: category "system_alert", subkey = level. -/
def system_alert (r : MessageThrottle) (now : Int) (interval : Int)
    (level message : String) (sendResult : Bool) : Bool × MessageThrottle × List String :=
  notifyDispatch r now "system_alert" interval level message sendResult

/-- Python `TelegramBot.custom_message`: early bypass when `throttle_seconds == 0`,
otherwise the dispatch pattern with category "custom". -/
def custom_message (r : MessageThrottle) (now : Int) (throttle_seconds : Int)
    (message throttle_key : String) (sendResult : Bool) :
    Bool × MessageThrottle × List String :=
  if throttle_seconds = 0 then
    (sendResult, r, [message])
  else
    notifyDispatch r now "custom" throttle_seconds throttle_key message sendResult

/-- Registry invariant: every still-running task is exactly the task recorded
in the `task` field of its key's state.  (Consequence: at most one running
flush task per key.) -/
def RegInv (r : MessageThrottle) : Prop :=
  ∀ tid t, r.tasks[tid]? = some t → t.status = TaskStatus.running →
    ∃ s, r.states t.key = some s ∧ s.task = some tid

/-! ## Basic lemmas -/

theorem setState_same (f : String → Option ThrottleState) (k : String) (s : ThrottleState) :
    setState f k s k = some s := by
  simp [setState]

theorem setState_other (f : String → Option ThrottleState) (k k' : String) (s : ThrottleState)
    (h : k' ≠ k) : setState f k s k' = f k' := by
  simp [setState, h]

/-! ## Claim theorems (first batch) -/

/-- C4: with interval exactly 0, `should_send_immediately` returns true and
the registry — every per-key state — is completely untouched. -/
theorem C4_zero_interval_decide_bypass (r : MessageThrottle) (now : Int) (mt k : String) :
    should_send_immediately r now mt 0 k = (true, r) := rfl

/-- C5: with interval exactly 0, `queue_message` delivers the message
immediately as the single send call, appends to no pending batch and
schedules no flush task: the registry is returned unchanged. -/
theorem C5_zero_interval_enqueue_sends (r : MessageThrottle) (mt m k : String) :
    queue_message r mt 0 m k = (r, [m]) := rfl

/-- C9: a `should_send_immediately` call that returns false leaves the whole
registry unchanged. -/
theorem C9_decide_false_frame (r : MessageThrottle) (now : Int) (mt : String)
    (ts : Int) (k : String)
    (h : (should_send_immediately r now mt ts k).1 = false) :
    (should_send_immediately r now mt ts k).2 = r := by
  unfold should_send_immediately at h ⊢
  by_cases h0 : ts = 0
  · simp [h0] at h
  · simp only [if_neg h0] at h ⊢
    cases hs : r.states (throttleKey mt k) with
    | none => simp [hs] at h
    | some s =>
      simp only [hs] at h ⊢
      by_cases hc : now - s.last_sent ≥ ts
      · simp [hc] at h
      · simp [hc]

/-- Witness for C9 at a concrete denied call. -/
theorem C9_decide_false_frame_witness :
    (should_send_immediately
      (should_send_immediately emptyThrottle 0 "price_alert" 60 "BTC").2
      10 "price_alert" 60 "BTC").2
    = (should_send_immediately emptyThrottle 0 "price_alert" 60 "BTC").2 :=
  C9_decide_false_frame _ 10 "price_alert" 60 "BTC" (by decide)

/-- C3: with a positive interval, `should_send_immediately` creates the state
and approves on first use, approves and stamps `last_sent := now` when the
elapsed time reaches the interval, and denies (leaving the registry
unchanged) otherwise. -/
theorem C3_decide_positive_interval (r : MessageThrottle) (now : Int)
    (mt k : String) (ts : Int) (hts : 0 < ts) :
    (r.states (throttleKey mt k) = none →
      should_send_immediately r now mt ts k
        = (true, { r with states := setState r.states (throttleKey mt k) ⟨now, [], none⟩ })) ∧
    (∀ s, r.states (throttleKey mt k) = some s → ts ≤ now - s.last_sent →
      should_send_immediately r now mt ts k
        = (true,
           { r with states := setState r.states (throttleKey mt k)
                                { s with last_sent := now } })) ∧
    (∀ s, r.states (throttleKey mt k) = some s → now - s.last_sent < ts →
      should_send_immediately r now mt ts k = (false, r)) := by
  have h0 : ts ≠ 0 := by omega
  refine ⟨fun hs => ?_, fun s hs hc => ?_, fun s hs hc => ?_⟩ <;>
    simp [should_send_immediately, if_neg h0, hs]
  all_goals omega

/-- Witness for C3: first-ever call approves and creates the state. -/
theorem C3_decide_positive_interval_witness :
    should_send_immediately emptyThrottle 5 "a" 3 "b"
      = (true, { emptyThrottle with
          states := setState emptyThrottle.states (throttleKey "a" "b") ⟨5, [], none⟩ }) :=
  (C3_decide_positive_interval emptyThrottle 5 "a" "b" 3 (by decide)).1 rfl

theorem queue_message_out_nil (r : MessageThrottle) (mt : String) (ts : Int)
    (m k : String) (h : ts ≠ 0) : (queue_message r mt ts m k).2 = [] := by
  simp only [queue_message, if_neg h]
  split <;> rfl

theorem queue_message_pending (r : MessageThrottle) (mt : String) (ts : Int)
    (m k : String) (h : ts ≠ 0) :
    ∃ s, ((queue_message r mt ts m k).1).states (throttleKey mt k) = some s ∧
      s.pending_messages = pendingOf r (throttleKey mt k) ++ [m] := by
  simp only [queue_message, if_neg h]
  split <;> exact ⟨_, setState_same .., rfl⟩

theorem queue_message_frame (r : MessageThrottle) (mt : String) (ts : Int)
    (m k k' : String) (h : ts ≠ 0) (hk : k' ≠ throttleKey mt k) :
    ((queue_message r mt ts m k).1).states k' = r.states k' := by
  simp only [queue_message, if_neg h]
  split <;> exact setState_other _ _ _ _ hk

/-- C7 counterexample: a negative interval is not the bypass path.  With
interval `-1`, `queue_message` delivers nothing immediately and queues the
message, and `should_send_immediately` creates per-key state; with interval
`0` the message is delivered at once and no state is touched. -/
theorem C7_counterexample :
    (queue_message emptyThrottle "t" (-1) "m" "k").2 = [] ∧
    (queue_message emptyThrottle "t" 0 "m" "k").2 = ["m"] ∧
    pendingOf (queue_message emptyThrottle "t" (-1) "m" "k").1 (throttleKey "t" "k")
      = ["m"] ∧
    (should_send_immediately emptyThrottle 0 "t" (-1) "k").2.states (throttleKey "t" "k")
      = some ⟨0, [], none⟩ ∧
    (should_send_immediately emptyThrottle 0 "t" 0 "k").2.states (throttleKey "t" "k")
      = none := by
  decide

/-- C7 amended: only interval exactly 0 is the bypass; a negative interval
takes the same stateful path as a positive one — `queue_message` appends to
the pending batch and delivers nothing immediately, and
`should_send_immediately` lazily creates state / stamps `last_sent` / answers
by the elapsed-time comparison. -/
theorem C7_amended_negative_interval_stateful (r : MessageThrottle) (now : Int)
    (mt m k : String) (ts : Int) (hts : ts < 0) :
    (queue_message r mt ts m k).2 = [] ∧
    (∃ s, ((queue_message r mt ts m k).1).states (throttleKey mt k) = some s ∧
      s.pending_messages = pendingOf r (throttleKey mt k) ++ [m]) ∧
    (r.states (throttleKey mt k) = none →
      should_send_immediately r now mt ts k
        = (true, { r with states := setState r.states (throttleKey mt k) ⟨now, [], none⟩ })) ∧
    (∀ s, r.states (throttleKey mt k) = some s → ts ≤ now - s.last_sent →
      should_send_immediately r now mt ts k
        = (true,
           { r with states := setState r.states (throttleKey mt k)
                                { s with last_sent := now } })) ∧
    (∀ s, r.states (throttleKey mt k) = some s → now - s.last_sent < ts →
      should_send_immediately r now mt ts k = (false, r)) := by
  have h0 : ts ≠ 0 := by omega
  refine ⟨queue_message_out_nil r mt ts m k h0, queue_message_pending r mt ts m k h0,
    fun hs => ?_, fun s hs hc => ?_, fun s hs hc => ?_⟩ <;>
    simp [should_send_immediately, if_neg h0, hs]
  all_goals omega

/-- Witness for C7 amended at interval `-1`. -/
theorem C7_amended_negative_interval_stateful_witness :
    (queue_message emptyThrottle "t" (-1) "m" "k").2 = [] ∧
    should_send_immediately emptyThrottle 0 "t" (-1) "k"
      = (true, { emptyThrottle with
          states := setState emptyThrottle.states (throttleKey "t" "k") ⟨0, [], none⟩ }) :=
  ⟨(C7_amended_negative_interval_stateful emptyThrottle 0 "t" "m" "k" (-1) (by decide)).1,
   (C7_amended_negative_interval_stateful emptyThrottle 0 "t" "m" "k" (-1)
      (by decide)).2.2.1 rfl⟩

theorem colon_append_inj {l1 l2 r1 r2 : List Char}
    (h1 : ':' ∉ l1) (h2 : ':' ∉ l2)
    (h : l1 ++ ':' :: r1 = l2 ++ ':' :: r2) : l1 = l2 ∧ r1 = r2 := by
  induction l1 generalizing l2 with
  | nil =>
    cases l2 with
    | nil => simpa using h
    | cons c cs =>
      simp only [List.nil_append, List.cons_append, List.cons.injEq] at h
      exact absurd (h.1 ▸ List.mem_cons_self c cs) (fun hm => h2 hm)
  | cons c cs ih =>
    cases l2 with
    | nil =>
      simp only [List.cons_append, List.nil_append, List.cons.injEq] at h
      exact absurd (h.1 ▸ List.mem_cons_self c cs) (fun hm => h1 hm)
    | cons d ds =>
      simp only [List.cons_append, List.cons.injEq] at h
      have hrec := ih (fun hm => h1 (List.mem_cons_of_mem c hm))
        (fun hm => h2 (List.mem_cons_of_mem d hm)) h.2
      exact ⟨by rw [h.1, hrec.1], hrec.2⟩

theorem throttleKey_data (mt k : String) :
    (throttleKey mt k).data = mt.data ++ ':' :: k.data := by
  simp [throttleKey, String.data_append]

/-- C8 counterexample: two distinct (category, subkey) pairs can map to the
same throttle state, because the key is the colon-joined string.  The pair
("a", "b:c"), used for the first time, is denied because the state created
for ("a:b", "c") is shared. -/
theorem C8_counterexample :
    throttleKey "a:b" "c" = throttleKey "a" "b:c" ∧
    (("a:b", "c") : String × String) ≠ ("a", "b:c") ∧
    (should_send_immediately
        (should_send_immediately emptyThrottle 0 "a:b" 60 "c").2
        0 "a" 60 "b:c").1 = false := by
  decide

/-- C8 amended: states are keyed by the joined string `category ++ ":" ++
subkey`, so two calls share a throttle state iff their joined keys are equal;
provided categories contain no ':', this holds iff the (category, subkey)
pairs are equal.  Moreover a `decide` call touches no entry other than its
own joined key. -/
theorem C8_amended_state_sharing (c1 k1 c2 k2 : String)
    (h1 : ':' ∉ c1.data) (h2 : ':' ∉ c2.data) :
    (throttleKey c1 k1 = throttleKey c2 k2 ↔ c1 = c2 ∧ k1 = k2) ∧
    (∀ r now ts k', k' ≠ throttleKey c1 k1 →
      ((should_send_immediately r now c1 ts k1).2).states k' = r.states k') := by
  constructor
  · constructor
    · intro h
      have hd := congrArg String.data h
      rw [throttleKey_data, throttleKey_data] at hd
      have := colon_append_inj h1 h2 hd
      exact ⟨String.ext this.1, String.ext this.2⟩
    · rintro ⟨rfl, rfl⟩; rfl
  · intro r now ts k' hk
    unfold should_send_immediately
    by_cases h0 : ts = 0
    · simp [h0]
    · simp only [if_neg h0]
      cases hs : r.states (throttleKey c1 k1) with
      | none => simp [setState_other _ _ _ _ hk]
      | some s =>
        by_cases hc : now - s.last_sent ≥ ts <;>
          simp [hc, setState_other _ _ _ _ hk]

/-- Witness for C8 amended with colon-free categories. -/
theorem C8_amended_state_sharing_witness :
    (throttleKey "price_alert" "BTC" = throttleKey "system_alert" "BTC" ↔
      ("price_alert" : String) = "system_alert" ∧ ("BTC" : String) = "BTC") ∧
    ((should_send_immediately emptyThrottle 0 "price_alert" 60 "BTC").2).states
        (throttleKey "system_alert" "BTC")
      = emptyThrottle.states (throttleKey "system_alert" "BTC") :=
  ⟨(C8_amended_state_sharing "price_alert" "BTC" "system_alert" "BTC"
      (by decide) (by decide)).1,
   (C8_amended_state_sharing "price_alert" "BTC" "system_alert" "BTC"
      (by decide) (by decide)).2 emptyThrottle 0 60 _ (by decide)⟩

theorem queue_message_first (mt : String) (ts : Int) (m k : String) (h : ts ≠ 0) :
    queue_message emptyThrottle mt ts m k
      = ({ states := setState (fun _ => none) (throttleKey mt k) ⟨0, [m], some 0⟩,
           tasks := [⟨throttleKey mt k, TaskStatus.running⟩] }, []) := by
  simp only [queue_message, if_neg h]
  rfl

theorem queue_message_keep (r : MessageThrottle) (mt : String) (ts : Int) (m k : String)
    (s : ThrottleState) (tid : Nat) (t : FlushTask)
    (h : ts ≠ 0) (hs : r.states (throttleKey mt k) = some s) (htask : s.task = some tid)
    (ht : r.tasks[tid]? = some t) (hrun : t.status = TaskStatus.running) :
    queue_message r mt ts m k
      = ({ r with states := setState r.states (throttleKey mt k)
                              { s with pending_messages := s.pending_messages ++ [m] } },
         []) := by
  have hdone : taskAbsentOrDone r s.task = false := by
    rw [htask]
    simp [taskAbsentOrDone, ht, FlushTask.isDone, hrun]
  simp only [queue_message, if_neg h, hs, Option.getD_some]
  split
  · next hcond => rw [hdone] at hcond; cases hcond
  · rfl

theorem enqueueAll_running (mt k : String) (ts : Int) (h : ts ≠ 0) (ms : List String) :
    ∀ (r : MessageThrottle) (ls : Int) (p : List String),
      r.states (throttleKey mt k) = some ⟨ls, p, some 0⟩ →
      r.tasks = [⟨throttleKey mt k, TaskStatus.running⟩] →
      (enqueueAll r mt ts k ms).2 = [] ∧
      (enqueueAll r mt ts k ms).1.states (throttleKey mt k) = some ⟨ls, p ++ ms, some 0⟩ ∧
      (enqueueAll r mt ts k ms).1.tasks = [⟨throttleKey mt k, TaskStatus.running⟩] ∧
      (∀ k', k' ≠ throttleKey mt k →
        (enqueueAll r mt ts k ms).1.states k' = r.states k') := by
  induction ms with
  | nil =>
    intro r ls p hs ht
    exact ⟨rfl, by simpa using hs, ht, fun k' _ => rfl⟩
  | cons m rest ih =>
    intro r ls p hs ht
    have hstep := queue_message_keep r mt ts m k ⟨ls, p, some 0⟩ 0
      ⟨throttleKey mt k, TaskStatus.running⟩ h hs rfl (by rw [ht]; rfl) rfl
    have hrec := ih (queue_message r mt ts m k).1 ls (p ++ [m])
      (by rw [hstep]; exact setState_same ..) (by rw [hstep]; exact ht)
    refine ⟨?_, ?_, hrec.2.2.1, ?_⟩
    · show (queue_message r mt ts m k).2 ++ (enqueueAll _ mt ts k rest).2 = []
      rw [hrec.1, hstep]; rfl
    · show (enqueueAll _ mt ts k rest).1.states _ = _
      rw [hrec.2.1, List.append_assoc, List.singleton_append]
    · intro k' hk
      show (enqueueAll _ mt ts k rest).1.states k' = r.states k'
      rw [hrec.2.2.2 k' hk, hstep]
      exact setState_other _ _ _ _ hk

theorem enqueueAll_nil (r : MessageThrottle) (mt : String) (ts : Int) (k : String) :
    enqueueAll r mt ts k [] = (r, []) := rfl

theorem enqueueAll_cons (r : MessageThrottle) (mt : String) (ts : Int) (k m : String)
    (ms : List String) :
    enqueueAll r mt ts k (m :: ms)
      = ((enqueueAll (queue_message r mt ts m k).1 mt ts k ms).1,
         (queue_message r mt ts m k).2
           ++ (enqueueAll (queue_message r mt ts m k).1 mt ts k ms).2) := rfl

theorem fireTask_flush (r : MessageThrottle) (now : Int) (tk : String)
    (ls : Int) (m : String) (rest : List String)
    (hst : r.states tk = some ⟨ls, m :: rest, some 0⟩)
    (htasks : r.tasks = [⟨tk, TaskStatus.running⟩]) :
    fireTask r now 0
      = ({ states := setState r.states tk ⟨now, [], some 0⟩,
           tasks := [⟨tk, TaskStatus.finished⟩] }, flushOutput (m :: rest)) := by
  have h1 : r.tasks[0]? = some ⟨tk, TaskStatus.running⟩ := by rw [htasks]; rfl
  simp only [fireTask, h1]
  simp only [batch_sender, hst]
  simp only [htasks]
  rfl

/-- C1: enqueuing the messages `ms` (k ≥ 1 of them) for one key within one
window delivers nothing immediately; when the single scheduled flush task
fires it clears the pending batch, stamps `last_sent := now`, and makes
exactly one send call — the lone message when k = 1, and for k > 1 one
combined text with the count-k header and the messages joined by the visible
separator in their original enqueue order; an empty snapshot does nothing. -/
theorem C1_window_enqueues_single_flush (mt k : String) (ts now now2 : Int)
    (ms : List String) (hts : 0 < ts) (hms : ms ≠ []) :
    (enqueueAll emptyThrottle mt ts k ms).2 = [] ∧
    (fireTask (enqueueAll emptyThrottle mt ts k ms).1 now 0).2 = flushOutput ms ∧
    (flushOutput ms).length = 1 ∧
    (∀ m, ms = [m] → flushOutput ms = [m]) ∧
    (2 ≤ ms.length → flushOutput ms = [batchedText ms]) ∧
    ((fireTask (enqueueAll emptyThrottle mt ts k ms).1 now 0).1).states (throttleKey mt k)
      = some ⟨now, [], some 0⟩ ∧
    batch_sender ((fireTask (enqueueAll emptyThrottle mt ts k ms).1 now 0).1) now2
        (throttleKey mt k)
      = ((fireTask (enqueueAll emptyThrottle mt ts k ms).1 now 0).1, []) := by
  have h0 : ts ≠ 0 := by omega
  obtain ⟨m, rest, rfl⟩ : ∃ a b, ms = a :: b := by
    cases ms with
    | nil => exact absurd rfl hms
    | cons a b => exact ⟨a, b, rfl⟩
  have hfirst := queue_message_first mt ts m k h0
  have hall := enqueueAll_running mt k ts h0 rest
    (queue_message emptyThrottle mt ts m k).1 0 [m]
    (by rw [hfirst]
        exact setState_same (fun _ => none) (throttleKey mt k) ⟨0, [m], some 0⟩)
    (by rw [hfirst])
  have hfire := fireTask_flush
    (enqueueAll (queue_message emptyThrottle mt ts m k).1 mt ts k rest).1 now
    (throttleKey mt k) 0 m rest hall.2.1 hall.2.2.1
  simp only [enqueueAll_cons]
  refine ⟨by rw [hall.1, hfirst]; rfl, by rw [hfire], ?_, ?_, ?_, ?_, ?_⟩
  · cases rest <;> rfl
  · intro m' hm'
    rw [hm']; rfl
  · intro hlen
    cases rest with
    | nil => simp at hlen
    | cons b bs => rfl
  · rw [hfire]
    exact setState_same ..
  · rw [hfire]
    simp only [batch_sender, setState_same]

/-- Witness for C1: two messages "A", "B" flushed as one combined call. -/
theorem C1_window_enqueues_single_flush_witness :
    (enqueueAll emptyThrottle "price_alert" 60 "BTC" ["A", "B"]).2 = [] ∧
    (fireTask (enqueueAll emptyThrottle "price_alert" 60 "BTC" ["A", "B"]).1 70 0).2
      = flushOutput ["A", "B"] :=
  ⟨(C1_window_enqueues_single_flush "price_alert" "BTC" 60 70 0 ["A", "B"]
      (by decide) (by decide)).1,
   (C1_window_enqueues_single_flush "price_alert" "BTC" 60 70 0 ["A", "B"]
      (by decide) (by decide)).2.1⟩

theorem queue_message_eq_true (r : MessageThrottle) (mt : String) (ts : Int)
    (m k : String) (h0 : ts ≠ 0)
    (hc : taskAbsentOrDone r ((r.states (throttleKey mt k)).getD {}).task = true) :
    queue_message r mt ts m k
      = ({ r with
            states := setState r.states (throttleKey mt k)
                        ⟨((r.states (throttleKey mt k)).getD {}).last_sent,
                         ((r.states (throttleKey mt k)).getD {}).pending_messages ++ [m],
                         some r.tasks.length⟩,
            tasks := r.tasks ++ [⟨throttleKey mt k, TaskStatus.running⟩] }, []) := by
  simp only [queue_message, if_neg h0]
  split
  · rfl
  · next hcond => exact absurd hc hcond

theorem queue_message_eq_false (r : MessageThrottle) (mt : String) (ts : Int)
    (m k : String) (h0 : ts ≠ 0)
    (hc : taskAbsentOrDone r ((r.states (throttleKey mt k)).getD {}).task = false) :
    queue_message r mt ts m k
      = ({ r with
            states := setState r.states (throttleKey mt k)
                        ⟨((r.states (throttleKey mt k)).getD {}).last_sent,
                         ((r.states (throttleKey mt k)).getD {}).pending_messages ++ [m],
                         ((r.states (throttleKey mt k)).getD {}).task⟩ }, []) := by
  simp only [queue_message, if_neg h0]
  split
  · next hcond => rw [hc] at hcond; cases hcond
  · rfl

theorem batch_sender_tasks (r : MessageThrottle) (now : Int) (tk : String) :
    (batch_sender r now tk).1.tasks = r.tasks := by
  cases hs : r.states tk with
  | none => simp [batch_sender, hs]
  | some s =>
    cases hp : s.pending_messages with
    | nil => simp [batch_sender, hs, hp]
    | cons m ms => simp [batch_sender, hs, hp]

theorem batch_sender_taskField (r : MessageThrottle) (now : Int) (tk k' : String) :
    ((batch_sender r now tk).1.states k').map ThrottleState.task
      = (r.states k').map ThrottleState.task := by
  cases hs : r.states tk with
  | none => simp [batch_sender, hs]
  | some s =>
    cases hp : s.pending_messages with
    | nil => simp [batch_sender, hs, hp]
    | cons m ms =>
      simp only [batch_sender, hs, hp]
      by_cases hk : k' = tk
      · subst hk
        rw [hs]
        show (setState r.states k' _ k').map ThrottleState.task = _
        rw [setState_same]
        rfl
      · show (setState r.states tk _ k').map ThrottleState.task = _
        rw [setState_other _ _ _ _ hk]

theorem decide_tasks (r : MessageThrottle) (now : Int) (mt : String) (ts : Int)
    (k : String) :
    (should_send_immediately r now mt ts k).2.tasks = r.tasks := by
  unfold should_send_immediately
  by_cases h0 : ts = 0
  · simp [h0]
  · simp only [if_neg h0]
    cases hs : r.states (throttleKey mt k) with
    | none => simp [hs]
    | some s => by_cases hc : now - s.last_sent ≥ ts <;> simp [hs, hc]

theorem decide_taskPtr (r : MessageThrottle) (now : Int) (mt : String) (ts : Int)
    (k k' : String) (tid : Nat)
    (h : (r.states k').map ThrottleState.task = some (some tid)) :
    ((should_send_immediately r now mt ts k).2.states k').map ThrottleState.task
      = some (some tid) := by
  unfold should_send_immediately
  by_cases h0 : ts = 0
  · simpa [h0] using h
  · simp only [if_neg h0]
    cases hs : r.states (throttleKey mt k) with
    | none =>
      simp only [hs]
      by_cases hk : k' = throttleKey mt k
      · rw [hk, hs] at h; cases h
      · show (setState r.states _ _ k').map ThrottleState.task = _
        rw [setState_other _ _ _ _ hk]; exact h
    | some s =>
      by_cases hc : now - s.last_sent ≥ ts <;> simp only [hs, hc, if_pos, if_neg]
      · by_cases hk : k' = throttleKey mt k
        · subst hk
          rw [hs] at h
          show (setState r.states (throttleKey mt k) _ (throttleKey mt k)).map
                 ThrottleState.task = _
          rw [setState_same]
          simpa using h
        · show (setState r.states _ _ k').map ThrottleState.task = _
          rw [setState_other _ _ _ _ hk]; exact h
      · simpa [hc] using h

theorem getElem?_some_lt {α : Type} (l : List α) (a : α) (i : Nat)
    (h : l[i]? = some a) : i < l.length := by
  by_contra hc
  rw [List.getElem?_eq_none (by omega)] at h
  cases h

theorem regInv_empty : RegInv emptyThrottle := by
  intro tid t ht hrun
  simp [emptyThrottle] at ht

theorem regInv_decide (r : MessageThrottle) (now : Int) (mt : String) (ts : Int)
    (k : String) (h : RegInv r) :
    RegInv (should_send_immediately r now mt ts k).2 := by
  intro tid t ht hrun
  rw [decide_tasks] at ht
  obtain ⟨s, hs, hstask⟩ := h tid t ht hrun
  have hptr : (r.states t.key).map ThrottleState.task = some (some tid) := by
    simp [hs, hstask]
  have h2 := decide_taskPtr r now mt ts k t.key tid hptr
  cases hafter : (should_send_immediately r now mt ts k).2.states t.key with
  | none => rw [hafter] at h2; cases h2
  | some s' =>
    rw [hafter] at h2
    exact ⟨s', rfl, by simpa using h2⟩

theorem regInv_enqueue (r : MessageThrottle) (mt : String) (ts : Int) (m k : String)
    (h : RegInv r) : RegInv (queue_message r mt ts m k).1 := by
  by_cases h0 : ts = 0
  · have E0 : (queue_message r mt ts m k).1 = r := by simp [queue_message, h0]
    rw [E0]
    exact h
  cases hc : taskAbsentOrDone r ((r.states (throttleKey mt k)).getD {}).task with
  | false =>
    have E := queue_message_eq_false r mt ts m k h0 hc
    have hT : ((queue_message r mt ts m k).1).tasks = r.tasks := by rw [E]
    have hS : ∀ k', ((queue_message r mt ts m k).1).states k'
        = setState r.states (throttleKey mt k)
            ⟨((r.states (throttleKey mt k)).getD {}).last_sent,
             ((r.states (throttleKey mt k)).getD {}).pending_messages ++ [m],
             ((r.states (throttleKey mt k)).getD {}).task⟩ k' := by
      intro k'; rw [E]
    intro tid t ht hrun
    rw [hT] at ht
    obtain ⟨s, hs, hstask⟩ := h tid t ht hrun
    rw [hS t.key]
    by_cases hk : t.key = throttleKey mt k
    · rw [hk, setState_same]
      refine ⟨_, rfl, ?_⟩
      show ((r.states (throttleKey mt k)).getD {}).task = some tid
      rw [hk] at hs
      rw [hs]
      exact hstask
    · rw [setState_other _ _ _ _ hk]
      exact ⟨s, hs, hstask⟩
  | true =>
    have E := queue_message_eq_true r mt ts m k h0 hc
    have hT : ((queue_message r mt ts m k).1).tasks
        = r.tasks ++ [⟨throttleKey mt k, TaskStatus.running⟩] := by rw [E]
    have hS : ∀ k', ((queue_message r mt ts m k).1).states k'
        = setState r.states (throttleKey mt k)
            ⟨((r.states (throttleKey mt k)).getD {}).last_sent,
             ((r.states (throttleKey mt k)).getD {}).pending_messages ++ [m],
             some r.tasks.length⟩ k' := by
      intro k'; rw [E]
    intro tid t ht hrun
    rw [hT] at ht
    rcases Nat.lt_trichotomy tid r.tasks.length with hlt | heq | hgt
    · rw [List.getElem?_append, if_pos hlt] at ht
      obtain ⟨s, hs, hstask⟩ := h tid t ht hrun
      by_cases hk : t.key = throttleKey mt k
      · exfalso
        rw [hk] at hs
        have hX : ((r.states (throttleKey mt k)).getD {}).task = some tid := by
          rw [hs]; exact hstask
        rw [hX] at hc
        have hd : FlushTask.isDone t = true := by
          simpa [taskAbsentOrDone, ht] using hc
        simp [FlushTask.isDone, hrun] at hd
      · rw [hS t.key, setState_other _ _ _ _ hk]
        exact ⟨s, hs, hstask⟩
    · subst heq
      rw [List.getElem?_concat_length] at ht
      have ht' : (⟨throttleKey mt k, TaskStatus.running⟩ : FlushTask) = t :=
        Option.some.inj ht
      rw [hS t.key, ← ht']
      show ∃ s', setState r.states (throttleKey mt k) _ (throttleKey mt k) = some s' ∧ _
      rw [setState_same]
      exact ⟨_, rfl, rfl⟩
    · exfalso
      rw [List.getElem?_append, if_neg (by omega)] at ht
      rw [List.getElem?_eq_none (by simp; omega)] at ht
      cases ht

theorem regInv_fire (r : MessageThrottle) (now : Int) (tid0 : Nat) (h : RegInv r) :
    RegInv (fireTask r now tid0).1 := by
  cases ht0 : r.tasks[tid0]? with
  | none =>
    have E0 : (fireTask r now tid0).1 = r := by simp [fireTask, ht0]
    rw [E0]
    exact h
  | some t0 =>
    by_cases hs0 : t0.status = TaskStatus.running
    · have E : (fireTask r now tid0).1
          = { (batch_sender r now t0.key).1 with
              tasks := (batch_sender r now t0.key).1.tasks.set tid0
                         ⟨t0.key, TaskStatus.finished⟩ } := by
        simp only [fireTask, ht0]
        rw [if_pos hs0]
      rw [E]
      intro tid t ht hrun
      show ∃ s, (batch_sender r now t0.key).1.states t.key = some s ∧ s.task = some tid
      have ht' : ((batch_sender r now t0.key).1.tasks.set tid0
          (⟨t0.key, TaskStatus.finished⟩ : FlushTask))[tid]? = some t := ht
      rw [batch_sender_tasks] at ht'
      by_cases htid : tid = tid0
      · exfalso
        subst htid
        have hlt : tid < r.tasks.length := getElem?_some_lt _ _ _ ht0
        rw [List.getElem?_set_self hlt] at ht'
        have := Option.some.inj ht'
        rw [← this] at hrun
        cases hrun
      · rw [List.getElem?_set_ne (Ne.symm htid)] at ht'
        obtain ⟨s, hs, hstask⟩ := h tid t ht' hrun
        have hptr : (r.states t.key).map ThrottleState.task = some (some tid) := by
          simp [hs, hstask]
        have h2 := (batch_sender_taskField r now t0.key t.key).trans hptr
        cases hafter : (batch_sender r now t0.key).1.states t.key with
        | none => rw [hafter] at h2; cases h2
        | some s' =>
          rw [hafter] at h2
          exact ⟨s', rfl, by simpa using h2⟩
    · have E : (fireTask r now tid0).1 = r := by
        simp only [fireTask, ht0]
        rw [if_neg hs0]
      rw [E]
      exact h

theorem regInv_cleanup (r : MessageThrottle) (_h : RegInv r) : RegInv (cleanup r) := by
  intro tid t ht hrun
  exfalso
  have ht' : (r.tasks.map fun u =>
      if u.status = TaskStatus.running
      then { u with status := TaskStatus.cancelled } else u)[tid]? = some t := ht
  rw [List.getElem?_map] at ht'
  cases hu : r.tasks[tid]? with
  | none => rw [hu] at ht'; cases ht'
  | some u =>
    rw [hu] at ht'
    have hut : (if u.status = TaskStatus.running
        then { u with status := TaskStatus.cancelled } else u) = t :=
      Option.some.inj ht'
    by_cases hs : u.status = TaskStatus.running
    · rw [if_pos hs] at hut
      rw [← hut] at hrun
      cases hrun
    · rw [if_neg hs] at hut
      rw [← hut] at hrun
      exact hs hrun

theorem regInv_step (r : MessageThrottle) (e : Event) (h : RegInv r) :
    RegInv (step r e) := by
  cases e with
  | decideEv now mt ts k => exact regInv_decide r now mt ts k h
  | enqueueEv mt ts m k => exact regInv_enqueue r mt ts m k h
  | fireEv now tid => exact regInv_fire r now tid h
  | cleanupEv => exact regInv_cleanup r h

theorem regInv_run (evs : List Event) : RegInv (run evs) := by
  suffices h : ∀ r, RegInv r → RegInv (evs.foldl step r) from
    h emptyThrottle regInv_empty
  induction evs with
  | nil => intro r h; exact h
  | cons e es ih => intro r h; exact ih _ (regInv_step r e h)

/-- C2: in every reachable registry at most one active (running) flush task
exists per key — two running tasks with the same key are the same task;
an enqueue that finds a running timer for its key only appends the message
to the pending batch (no task is created); a fresh flush task is scheduled
exactly when the key has no timer or the previous one is done. -/
theorem C2_at_most_one_active_timer (evs : List Event) :
    (∀ (tid1 tid2 : Nat) (t1 t2 : FlushTask),
      (run evs).tasks[tid1]? = some t1 → (run evs).tasks[tid2]? = some t2 →
      t1.status = TaskStatus.running → t2.status = TaskStatus.running →
      t1.key = t2.key → tid1 = tid2) ∧
    (∀ (r : MessageThrottle) (mt : String) (ts : Int) (m k : String)
       (s : ThrottleState) (tid : Nat) (t : FlushTask), ts ≠ 0 →
      r.states (throttleKey mt k) = some s → s.task = some tid →
      r.tasks[tid]? = some t → t.status = TaskStatus.running →
      (queue_message r mt ts m k).1.tasks = r.tasks ∧
      ((queue_message r mt ts m k).1).states (throttleKey mt k)
        = some { s with pending_messages := s.pending_messages ++ [m] }) ∧
    (∀ (r : MessageThrottle) (mt : String) (ts : Int) (m k : String), ts ≠ 0 →
      taskAbsentOrDone r ((r.states (throttleKey mt k)).getD {}).task = true →
      (queue_message r mt ts m k).1.tasks
        = r.tasks ++ [⟨throttleKey mt k, TaskStatus.running⟩]) := by
  refine ⟨?_, ?_, ?_⟩
  · intro tid1 tid2 t1 t2 h1 h2 hr1 hr2 hkey
    obtain ⟨s1, hs1, ht1⟩ := regInv_run evs tid1 t1 h1 hr1
    obtain ⟨s2, hs2, ht2⟩ := regInv_run evs tid2 t2 h2 hr2
    rw [hkey, hs2] at hs1
    have : s2 = s1 := Option.some.inj hs1
    rw [this, ht1] at ht2
    exact Option.some.inj ht2
  · intro r mt ts m k s tid t h0 hs htask ht hrun
    have E := queue_message_keep r mt ts m k s tid t h0 hs htask ht hrun
    constructor
    · rw [E]
    · rw [E]
      exact setState_same ..
  · intro r mt ts m k h0 hc
    rw [queue_message_eq_true r mt ts m k h0 hc]

/-- Witness for C2: a second enqueue in the same window appends only. -/
theorem C2_at_most_one_active_timer_witness :
    (queue_message (run [Event.enqueueEv "a" 5 "m1" "k"]) "a" 5 "m2" "k").1.tasks
      = (run [Event.enqueueEv "a" 5 "m1" "k"]).tasks ∧
    ((queue_message (run [Event.enqueueEv "a" 5 "m1" "k"]) "a" 5 "m2" "k").1).states
        (throttleKey "a" "k")
      = some ⟨0, ["m1", "m2"], some 0⟩ :=
  (C2_at_most_one_active_timer [Event.enqueueEv "a" 5 "m1" "k"]).2.1
    (run [Event.enqueueEv "a" 5 "m1" "k"]) "a" 5 "m2" "k"
    ⟨0, ["m1"], some 0⟩ 0 ⟨throttleKey "a" "k", TaskStatus.running⟩
    (by decide) (by decide) rfl (by decide) rfl

/-- C6: the `cleanup` operation cancels every still-running flush task (already-done tasks
are left untouched), discards all per-key state, and cancelled timers never
fire; any later `decide` on a previously-used key approves as a first-ever
use, and `decide`/`enqueue` after cleanup produce the same decisions,
immediate deliveries and per-key observables as on a brand-new registry. -/
theorem C6_cleanup_discards_all (r : MessageThrottle) :
    (∀ k : String, (cleanup r).states k = none) ∧
    (∀ (tid : Nat) (t : FlushTask), r.tasks[tid]? = some t →
      (cleanup r).tasks[tid]?
        = some (if t.status = TaskStatus.running
                then { t with status := TaskStatus.cancelled } else t)) ∧
    (∀ (tid : Nat) (t : FlushTask), (cleanup r).tasks[tid]? = some t →
      t.status ≠ TaskStatus.running) ∧
    (∀ (now : Int) (tid : Nat), fireTask (cleanup r) now tid = (cleanup r, [])) ∧
    (∀ (now : Int) (mt : String) (ts : Int) (k : String),
      (should_send_immediately (cleanup r) now mt ts k).1 = true ∧
      (should_send_immediately (cleanup r) now mt ts k).1
        = (should_send_immediately emptyThrottle now mt ts k).1 ∧
      ∀ k' : String, ((should_send_immediately (cleanup r) now mt ts k).2).states k'
        = ((should_send_immediately emptyThrottle now mt ts k).2).states k') ∧
    (∀ (mt : String) (ts : Int) (m k : String),
      (queue_message (cleanup r) mt ts m k).2
        = (queue_message emptyThrottle mt ts m k).2 ∧
      pendingOf (queue_message (cleanup r) mt ts m k).1 (throttleKey mt k)
        = pendingOf (queue_message emptyThrottle mt ts m k).1 (throttleKey mt k) ∧
      lastSentOf (queue_message (cleanup r) mt ts m k).1 (throttleKey mt k)
        = lastSentOf (queue_message emptyThrottle mt ts m k).1 (throttleKey mt k)) := by
  have hnone : ∀ k : String, (cleanup r).states k = none := fun k => rfl
  have hdone : ∀ (tid : Nat) (t : FlushTask), (cleanup r).tasks[tid]? = some t →
      t.status ≠ TaskStatus.running := by
    intro tid t ht hrun
    have ht' : ((r.tasks.map fun u =>
        if u.status = TaskStatus.running
        then { u with status := TaskStatus.cancelled } else u))[tid]? = some t := ht
    rw [List.getElem?_map] at ht'
    cases hu : r.tasks[tid]? with
    | none => rw [hu] at ht'; cases ht'
    | some u =>
      rw [hu] at ht'
      have hut : (if u.status = TaskStatus.running
          then { u with status := TaskStatus.cancelled } else u) = t :=
        Option.some.inj ht'
      by_cases hs : u.status = TaskStatus.running
      · rw [if_pos hs] at hut
        rw [← hut] at hrun
        cases hrun
      · rw [if_neg hs] at hut
        rw [← hut] at hrun
        exact hs hrun
  refine ⟨hnone, ?_, hdone, ?_, ?_, ?_⟩
  · intro tid t ht
    show ((r.tasks.map fun u =>
        if u.status = TaskStatus.running
        then { u with status := TaskStatus.cancelled } else u))[tid]? = _
    rw [List.getElem?_map, ht]
    rfl
  · intro now tid
    cases ht : (cleanup r).tasks[tid]? with
    | none => simp [fireTask, ht]
    | some t =>
      have hnr := hdone tid t ht
      simp only [fireTask, ht]
      rw [if_neg hnr]
  · intro now mt ts k
    by_cases h0 : ts = 0
    · refine ⟨?_, ?_, ?_⟩ <;> simp [should_send_immediately, h0, cleanup, emptyThrottle]
    · refine ⟨?_, ?_, ?_⟩ <;>
        simp [should_send_immediately, h0, cleanup, emptyThrottle]
  · intro mt ts m k
    by_cases h0 : ts = 0
    · refine ⟨?_, ?_, ?_⟩ <;>
        simp [queue_message, h0, cleanup, emptyThrottle, pendingOf, lastSentOf]
    · refine ⟨?_, ?_, ?_⟩ <;>
        simp [queue_message, h0, cleanup, emptyThrottle, pendingOf, lastSentOf,
          taskAbsentOrDone, setState]

/-- Witness for C6 on a registry holding one running flush task. -/
theorem C6_cleanup_discards_all_witness :
    (cleanup (run [Event.enqueueEv "a" 5 "m" "k"])).states (throttleKey "a" "k")
      = none ∧
    (cleanup (run [Event.enqueueEv "a" 5 "m" "k"])).tasks[0]?
      = some ⟨throttleKey "a" "k", TaskStatus.cancelled⟩ ∧
    fireTask (cleanup (run [Event.enqueueEv "a" 5 "m" "k"])) 99 0
      = (cleanup (run [Event.enqueueEv "a" 5 "m" "k"]), []) ∧
    (should_send_immediately (cleanup (run [Event.enqueueEv "a" 5 "m" "k"]))
        7 "a" 5 "k").1 = true :=
  ⟨(C6_cleanup_discards_all (run [Event.enqueueEv "a" 5 "m" "k"])).1
      (throttleKey "a" "k"),
   (C6_cleanup_discards_all (run [Event.enqueueEv "a" 5 "m" "k"])).2.1 0
      ⟨throttleKey "a" "k", TaskStatus.running⟩ (by decide),
   (C6_cleanup_discards_all (run [Event.enqueueEv "a" 5 "m" "k"])).2.2.2.1 99 0,
   ((C6_cleanup_discards_all (run [Event.enqueueEv "a" 5 "m" "k"])).2.2.2.2.1
      7 "a" 5 "k").1⟩

theorem decide_false_interval_ne_zero (r : MessageThrottle) (now : Int)
    (mt : String) (ts : Int) (k : String)
    (h : (should_send_immediately r now mt ts k).1 = false) : ts ≠ 0 := by
  intro h0
  rw [h0] at h
  simp [should_send_immediately] at h

/-- C10: on every throttled bot notification path (price_alert,
position_update, system_alert, custom_message), when the decision is to
queue, the method returns `True` immediately, whatever boolean the deferred
send capability would later report. -/
theorem C10_queue_path_returns_true (r : MessageThrottle) (now : Int)
    (interval : Int) (msg : String) (sendResult : Bool) :
    (∀ symbol : String,
      (should_send_immediately r now "price_alert" interval symbol).1 = false →
      (price_alert r now interval symbol msg sendResult).1 = true) ∧
    (∀ exchange : String,
      (should_send_immediately r now "position_update" interval exchange).1 = false →
      (position_update r now interval exchange msg sendResult).1 = true) ∧
    (∀ level : String,
      (should_send_immediately r now "system_alert" interval level).1 = false →
      (system_alert r now interval level msg sendResult).1 = true) ∧
    (∀ ck : String,
      (should_send_immediately r now "custom" interval ck).1 = false →
      (custom_message r now interval msg ck sendResult).1 = true) := by
  have base : ∀ cat sub : String,
      (should_send_immediately r now cat interval sub).1 = false →
      (notifyDispatch r now cat interval sub msg sendResult).1 = true := by
    intro cat sub h
    simp [notifyDispatch, h]
  refine ⟨fun s h => base _ _ h, fun s h => base _ _ h, fun s h => base _ _ h,
    fun ck h => ?_⟩
  have h0 : interval ≠ 0 := decide_false_interval_ne_zero _ _ _ _ _ h
  show (custom_message r now interval msg ck sendResult).1 = true
  rw [custom_message, if_neg h0]
  exact base _ _ h

/-- Witness for C10: all four methods return `True` on the queue path even
when the send capability would report `False`. -/
theorem C10_queue_path_returns_true_witness :
    (price_alert (run [Event.decideEv 0 "price_alert" 60 "BTC",
        Event.decideEv 0 "position_update" 60 "binance",
        Event.decideEv 0 "system_alert" 60 "warn",
        Event.decideEv 0 "custom" 60 "custom"]) 10 60 "BTC" "p" false).1 = true ∧
    (position_update (run [Event.decideEv 0 "price_alert" 60 "BTC",
        Event.decideEv 0 "position_update" 60 "binance",
        Event.decideEv 0 "system_alert" 60 "warn",
        Event.decideEv 0 "custom" 60 "custom"]) 10 60 "binance" "p" false).1 = true ∧
    (system_alert (run [Event.decideEv 0 "price_alert" 60 "BTC",
        Event.decideEv 0 "position_update" 60 "binance",
        Event.decideEv 0 "system_alert" 60 "warn",
        Event.decideEv 0 "custom" 60 "custom"]) 10 60 "warn" "p" false).1 = true ∧
    (custom_message (run [Event.decideEv 0 "price_alert" 60 "BTC",
        Event.decideEv 0 "position_update" 60 "binance",
        Event.decideEv 0 "system_alert" 60 "warn",
        Event.decideEv 0 "custom" 60 "custom"]) 10 60 "p" "custom" false).1 = true :=
  ⟨(C10_queue_path_returns_true _ 10 60 "p" false).1 "BTC" (by decide),
   (C10_queue_path_returns_true _ 10 60 "p" false).2.1 "binance" (by decide),
   (C10_queue_path_returns_true _ 10 60 "p" false).2.2.1 "warn" (by decide),
   (C10_queue_path_returns_true _ 10 60 "p" false).2.2.2 "custom" (by decide)⟩
